import Mathlib

/-!
Verification of the credential-lifecycle core of CLIProxyAPI: the synchronous
force-refresh management handler, the synthetic user-id caches, the user-id
well-formedness validator, and the bounded-concurrency refresh scheduler.

Source files embedded:
- internal/api/handlers/management/auth_refresh.go (handler revision with the
  executor-contract checks, the one exercised by the package tests)
- internal/runtime/executor/user_id_cache.go (both revisions of cachedUserID:
  the (provider, model)-scoped one and the API-key-scoped one)
The Registry/Manager operations, the user-id generator/validator, and the
scheduler admission gate are not present in the source slice; they are
modelled from the spec where needed, as marked on each definition.
-/

namespace CLIProxy

/-! ## Go string helpers (ASCII/Latin-1 fragment of the Go stdlib behavior) -/

/-- Embeds Go `unicode.IsSpace` on the ASCII/Latin-1 range:
'\t', '\n', vertical tab, form feed, '\r', ' ', NEL (U+0085), NBSP (U+00A0). -/
def goIsSpace (c : Char) : Bool :=
  c = ' ' || c = '\t' || c = '\n' || c = Char.ofNat 11 || c = Char.ofNat 12 ||
  c = '\r' || c = Char.ofNat 0x85 || c = Char.ofNat 0xA0

/-- Embeds Go `strings.TrimSpace`: drop leading and trailing white space. -/
def goTrimSpace (s : String) : String :=
  String.mk (((s.data.dropWhile goIsSpace).reverse.dropWhile goIsSpace).reverse)

/-- ASCII lower-casing of one character, as Go `strings.ToLower` acts on ASCII. -/
def asciiLower (c : Char) : Char :=
  if 'A' ≤ c ∧ c ≤ 'Z' then Char.ofNat (c.toNat + 32) else c

/-- Embeds Go `strings.ToLower` on ASCII strings. -/
def goToLower (s : String) : String :=
  String.mk (s.data.map asciiLower)

/-- Embeds Go `strings.EqualFold` on ASCII strings: case-insensitive equality. -/
def goEqualFold (a b : String) : Bool :=
  goToLower a = goToLower b

/-! ## Credential records (sdk/cliproxy/auth.Auth)

Time is modelled as `Nat`; the Go zero `time.Time{}` is `0`.  `Metadata` is an
opaque association list (the handler never inspects it), `Runtime` an opaque
optional handle (`none` is the Go nil).  Go `Clone` deep-copies a record; in
the value semantics of the embedding it is the identity and is elided. -/

structure Auth where
  id : String := ""
  provider : String := ""
  metadata : List (String × String) := []
  runtime : Option Nat := none
  lastRefreshedAt : Nat := 0
  nextRefreshAfter : Nat := 0
  lastError : Option String := none
  createdAt : Nat := 0
  updatedAt : Nat := 0
deriving Repr, DecidableEq

/-- Modelled from the spec: Registry `GetByID(id) → (record, found)`; the
Registry implementation is absent from the source slice, the spec fixes the
lookup-by-unique-ID contract.  The registry is an ordered list of records. -/
def getByID (reg : List Auth) (id : String) : Option Auth :=
  reg.find? (fun a => a.id == id)

/-- Modelled from the spec: Registry `Update(record)` fails if the record no
longer exists or Provider changed, otherwise replaces the stored record with
the caller-supplied full replacement (copy-then-merge is the caller's job). -/
def registryUpdate (reg : List Auth) (a : Auth) :
    List Auth × Except String Auth :=
  match reg.find? (fun r => r.id == a.id) with
  | none => (reg, Except.error "auth not found")
  | some prev =>
    if prev.provider = a.provider then
      (reg.map (fun r => if r.id == a.id then a else r), Except.ok a)
    else
      (reg, Except.error "provider changed")

/-- The Manager's `Update` as the handler consumes it: a possibly-nil persisted
record or an error (`Option Auth` is the Go `*Auth`). -/
def managerUpdate (reg : List Auth) (a : Auth) :
    List Auth × Except String (Option Auth) :=
  match registryUpdate reg a with
  | (reg2, Except.error e) => (reg2, Except.error e)
  | (reg2, Except.ok p) => (reg2, Except.ok (some p))

/-! ## The force-refresh handler (PostForceRefreshTokens) -/

structure ForceRefreshRequest where
  authID : String := ""
  provider : String := ""
deriving Repr, DecidableEq

structure ForceRefreshResponse where
  authID : String := ""
  provider : String := ""
  refreshed : Bool := false
  error : Option String := none
  auth : Option Auth := none
deriving Repr, DecidableEq

/-- HTTP status, JSON body and the registry state after the call. -/
structure HandlerOutcome where
  status : Nat
  body : ForceRefreshResponse
  registry : List Auth
deriving Repr, DecidableEq

/-- `if updated.ID == "" { updated.ID = auth.ID }` of the handler. -/
def defaultID (auth u : Auth) : Auth :=
  if u.id = "" then { u with id := auth.id } else u

/-- `if updated.Provider == "" { updated.Provider = auth.Provider }`. -/
def defaultProvider (auth u : Auth) : Auth :=
  if u.provider = "" then { u with provider := auth.provider } else u

/-- `if updated.Runtime == nil { updated.Runtime = auth.Runtime }`. -/
def defaultRuntime (auth u : Auth) : Auth :=
  if u.runtime = none then { u with runtime := auth.runtime } else u

/-- The record persisted on the success path of the handler: the executor's
result (or, when the executor returned nil, a clone of the stored record) with
empty ID/Provider and nil Runtime defaulted from the stored record, then
`LastRefreshedAt = now`, `NextRefreshAfter` cleared, `LastError` cleared,
`UpdatedAt = now`. -/
def refreshedRecord (auth : Auth) (updOpt : Option Auth) (now : Nat) : Auth :=
  let u3 := defaultRuntime auth (defaultProvider auth (defaultID auth (updOpt.getD auth)))
  { u3 with lastRefreshedAt := now, nextRefreshAfter := 0,
            lastError := none, updatedAt := now }

/-- Embeds `Handler.PostForceRefreshTokens` (the revision carrying the
executor-contract checks, matching the package tests).  The Manager is
abstracted exactly as the handler consumes it: `hasExec` is executor lookup
by provider, `refresh` the injected `Executor.Refresh` (Go `(*Auth, error)` as
`Option Auth × Option String`), `update` the Manager update threaded through
the registry state.  `now` is `time.Now()`.  The JSON-binding and nil-handler
guards above the body parse are outside the model. -/
def postForceRefreshTokens
    (hasExec : String → Bool)
    (refresh : Auth → Option Auth × Option String)
    (update : List Auth → Auth → List Auth × Except String (Option Auth))
    (now : Nat) (registry : List Auth) (req : ForceRefreshRequest) :
    HandlerOutcome :=
  let providerFilter := goToLower (goTrimSpace req.provider)
  let authID := goTrimSpace req.authID
  let result : ForceRefreshResponse := { authID := authID, provider := providerFilter }
  if authID = "" then
    ⟨400, { result with error := some "auth_id is required" }, registry⟩
  else
    match getByID registry authID with
    | none => ⟨404, { result with error := some "auth not found" }, registry⟩
    | some auth =>
      let result := { result with authID := auth.id, provider := auth.provider }
      if providerFilter ≠ "" ∧ goEqualFold providerFilter auth.provider = false then
        ⟨400, { result with error := some "provider mismatch" }, registry⟩
      else if hasExec (goTrimSpace auth.provider) = false then
        ⟨400, { result with error := some "executor not registered" }, registry⟩
      else
        match refresh auth with
        | (_, some msg) =>
          ⟨400, { result with error := some msg }, registry⟩
        | (updOpt, none) =>
          let u1 := defaultID auth (updOpt.getD auth)
          if u1.id ≠ auth.id then
            ⟨500, { result with error := some "executor returned mismatched auth id" },
              registry⟩
          else
            let u2 := defaultProvider auth u1
            if goEqualFold u2.provider auth.provider = false then
              ⟨500, { result with error := some "executor returned mismatched provider" },
                registry⟩
            else
              match update registry (refreshedRecord auth updOpt now) with
              | (reg2, Except.error e) =>
                ⟨500, { result with error := some e }, reg2⟩
              | (reg2, Except.ok none) =>
                ⟨500, { result with error := some "failed to persist refreshed auth" }, reg2⟩
              | (reg2, Except.ok (some persisted)) =>
                ⟨200,
                  { result with
                      refreshed := true
                      auth := some persisted
                      authID := persisted.id
                      provider := persisted.provider },
                  reg2⟩

/-- A failure outcome of the handler: the given status, the given error
message, `refreshed = false`, and the given final registry. -/
def failsWith (o : HandlerOutcome) (status : Nat) (msg : String)
    (reg : List Auth) : Prop :=
  o.status = status ∧ o.body.error = some msg ∧ o.body.refreshed = false ∧
  o.registry = reg

instance (o : HandlerOutcome) (status : Nat) (msg : String) (reg : List Auth) :
    Decidable (failsWith o status msg reg) := by
  unfold failsWith; infer_instance

/-- The guards of the handler that precede the `Executor.Refresh` call all
pass: non-empty trimmed auth id, the id resolves in the registry, the optional
provider filter matches, and an executor is registered for the provider. -/
def passesPreChecks (hasExec : String → Bool) (reg : List Auth)
    (req : ForceRefreshRequest) (auth : Auth) : Prop :=
  goTrimSpace req.authID ≠ "" ∧
  getByID reg (goTrimSpace req.authID) = some auth ∧
  ¬(goToLower (goTrimSpace req.provider) ≠ "" ∧
     goEqualFold (goToLower (goTrimSpace req.provider)) auth.provider = false) ∧
  hasExec (goTrimSpace auth.provider) = true

instance (hasExec : String → Bool) (reg : List Auth) (req : ForceRefreshRequest)
    (auth : Auth) : Decidable (passesPreChecks hasExec reg req auth) := by
  unfold passesPreChecks; infer_instance

/-! ## Synthetic user identity: generator and validator

`generateFakeUserID` and `isValidUserID` are called by the cache code but
their bodies are absent from the source slice; they are modelled from the
spec (§4.4) and the end-to-end test's regex
`user_[a-f0-9]{64}_account__session_{8-4-4-4-12 hex uuid}`. -/

/-- Lowercase hexadecimal character test: `[0-9a-f]`. -/
def isHexChar (c : Char) : Bool :=
  (decide ('0' ≤ c) && decide (c ≤ '9')) || (decide ('a' ≤ c) && decide (c ≤ 'f'))

/-- The lowercase hex digit for a value below 16. -/
def hexDigitChar (n : Nat) : Char :=
  if n < 10 then Char.ofNat (48 + n) else Char.ofNat (87 + n)

/-- Fixed-width big-endian lowercase hex rendering of `v`, `l` digits wide. -/
def hexList : Nat → Nat → List Char
  | 0, _ => []
  | l + 1, v => hexList l (v / 16) ++ [hexDigitChar (v % 16)]

def userIDHead : List Char := "user_".data

def userIDSep : List Char := "_account__session_".data

/-- Modelled from the spec: `generateFakeUserID` (absent from the source
slice) mints `user_` + 64 lowercase-hex chars + `_account__session_` + a
UUID-shaped 8-4-4-4-12 hex session segment.  Randomness is modelled by the
`nonce` argument; every segment is derived from it. -/
def generateFakeUserID (nonce : Nat) : String :=
  String.mk (userIDHead ++ hexList 64 nonce ++ userIDSep ++
    hexList 8 nonce ++ ['-'] ++ hexList 4 nonce ++ ['-'] ++ hexList 4 nonce ++
    ['-'] ++ hexList 4 nonce ++ ['-'] ++ hexList 12 nonce)

/-- Consume an exact literal from the front of the input. -/
def expectLit : List Char → List Char → Option (List Char)
  | [], cs => some cs
  | _ :: _, [] => none
  | p :: ps, c :: cs => if c = p then expectLit ps cs else none

/-- Consume exactly `n` lowercase-hex characters from the front of the input. -/
def expectHexRun : Nat → List Char → Option (List Char)
  | 0, cs => some cs
  | _ + 1, [] => none
  | n + 1, c :: cs => if isHexChar c then expectHexRun n cs else none

/-- The whole pattern consumed in sequence; returns the unconsumed leftover. -/
def checkUserID (cs0 : List Char) : Option (List Char) := do
  let cs ← expectLit userIDHead cs0
  let cs ← expectHexRun 64 cs
  let cs ← expectLit userIDSep cs
  let cs ← expectHexRun 8 cs
  let cs ← expectLit ['-'] cs
  let cs ← expectHexRun 4 cs
  let cs ← expectLit ['-'] cs
  let cs ← expectHexRun 4 cs
  let cs ← expectLit ['-'] cs
  let cs ← expectHexRun 4 cs
  let cs ← expectLit ['-'] cs
  expectHexRun 12 cs

/-- Modelled from the spec: `isValidUserID` (absent from the source slice)
accepts exactly the strings matching the fixed pattern
`user_[a-f0-9]{64}_account__session_[a-f0-9]{8}-[a-f0-9]{4}-[a-f0-9]{4}-[a-f0-9]{4}-[a-f0-9]{12}`. -/
def isValidUserID (s : String) : Bool :=
  match checkUserID s.data with
  | some [] => true
  | _ => false

/-- The declarative reading of the spec's well-formedness pattern, stated
independently of the executable validator: fixed head, a 64-char hex digest,
the fixed separator, and a UUID-shaped 8-4-4-4-12 hex session segment. -/
def ConformsUserID (s : String) : Prop :=
  ∃ d g1 g2 g3 g4 g5 : List Char,
    s.data = userIDHead ++ d ++ userIDSep ++ g1 ++ ['-'] ++ g2 ++ ['-'] ++
      g3 ++ ['-'] ++ g4 ++ ['-'] ++ g5 ∧
    d.length = 64 ∧ g1.length = 8 ∧ g2.length = 4 ∧ g3.length = 4 ∧
    g4.length = 4 ∧ g5.length = 12 ∧
    d.all isHexChar = true ∧ g1.all isHexChar = true ∧
    g2.all isHexChar = true ∧ g3.all isHexChar = true ∧
    g4.all isHexChar = true ∧ g5.all isHexChar = true

/-! ## The user-id caches (user_id_cache.go, both revisions)

The Go map is an association list; `nonce` feeds the modelled generator at
the single call site each function has; `now` is `time.Now()`.  Time is `Nat`
(seconds); the TTL `time.Hour` is 3600. -/

structure UserIDCacheEntry where
  value : String
  expire : Nat
deriving Repr, DecidableEq

abbrev UserIDCache := List (String × UserIDCacheEntry)

def cacheLookup (c : UserIDCache) (k : String) : Option UserIDCacheEntry :=
  (c.find? (fun p => p.1 == k)).map (fun p => p.2)

def cacheInsert (c : UserIDCache) (k : String) (e : UserIDCacheEntry) :
    UserIDCache :=
  if (c.find? (fun p => p.1 == k)).isSome then
    c.map (fun p => if p.1 == k then (k, e) else p)
  else c ++ [(k, e)]

def userIDTTL : Nat := 3600

def userIDCacheCleanupPeriod : Nat := 15 * 60

/-- Embeds `purgeExpiredUserIDs`: delete every entry with `expire` before now. -/
def purgeExpiredUserIDs (now : Nat) (c : UserIDCache) : UserIDCache :=
  c.filter (fun p => !(decide (p.2.expire < now)))

/-- Embeds `cachedUserID(provider, model string)` of
internal/runtime/executor/user_id_cache.go: scoped by the `provider|model`
pair; on a valid unexpired hit returns the stored value without touching the
entry, otherwise mints and stores a fresh id expiring at `now + TTL`. -/
def cachedUserID (nonce now : Nat) (cache : UserIDCache)
    (provider model : String) : String × UserIDCache :=
  if provider = "" ∨ model = "" then (generateFakeUserID nonce, cache)
  else
    let key := provider ++ "|" ++ model
    match cacheLookup cache key with
    | some entry =>
      if now < entry.expire ∧ entry.value ≠ "" ∧ isValidUserID entry.value = true then
        (entry.value, cache)
      else
        (generateFakeUserID nonce,
         cacheInsert cache key ⟨generateFakeUserID nonce, now + userIDTTL⟩)
    | none =>
      (generateFakeUserID nonce,
       cacheInsert cache key ⟨generateFakeUserID nonce, now + userIDTTL⟩)

/-- Embeds the API-key-scoped revision of `cachedUserID(apiKey string)` (the
copy concatenated into auth_refresh.go): a Go map read yields the zero entry
when absent; the value is kept if non-empty, not strictly before `now`, and
valid; the entry's expiry is rewritten to `now + TTL` on every call. -/
def cachedUserIDApiKey (nonce now : Nat) (cache : UserIDCache)
    (apiKey : String) : String × UserIDCache :=
  if apiKey = "" then (generateFakeUserID nonce, cache)
  else
    let entry := (cacheLookup cache apiKey).getD ⟨"", 0⟩
    let value :=
      if entry.value = "" ∨ entry.expire < now ∨ isValidUserID entry.value = false
      then generateFakeUserID nonce else entry.value
    (value, cacheInsert cache apiKey ⟨value, now + userIDTTL⟩)

/-! ## The refresh scheduler's admission gate

Modelled from the spec: `checkRefreshes` and `refreshMaxConcurrency` are
absent from the source slice (only the concurrency test is present).  The
spec (§4.3, §5, §9) prescribes a counting admission gate of `N` slots: a unit
acquires a slot before `Executor.Refresh` and releases it unconditionally on
every exit — success, error, or cancellation.  The gate is global, not
per-provider, so units carry their provider only as inert data. -/

inductive RefreshOutcome
  | ok
  | errored
  | cancelled
deriving Repr, DecidableEq

inductive RefreshPhase
  | pending
  | running
  | done (outcome : RefreshOutcome)
deriving Repr, DecidableEq

structure RefreshUnit where
  provider : String
  phase : RefreshPhase
deriving Repr, DecidableEq

structure SchedulerState where
  units : List RefreshUnit
  held : Nat
deriving Repr, DecidableEq

def isRunning (u : RefreshUnit) : Bool :=
  decide (u.phase = RefreshPhase.running)

/-- How many `Executor.Refresh` calls are in flight in this state. -/
def runningCount (s : SchedulerState) : Nat :=
  (s.units.filter isRunning).length

/-- Modelled from the spec: the two events of a dispatched refresh unit.
`start` admits a pending unit only while fewer than `N` slots are held and
takes one slot; `finish` ends a running unit with any outcome (success,
error, or cancellation) and always gives its slot back. -/
inductive SchedStep (N : Nat) : SchedulerState → SchedulerState → Prop
  | start {s : SchedulerState} (i : Nat) (u : RefreshUnit)
      (hheld : s.held < N) (hu : s.units.get? i = some u)
      (hp : u.phase = RefreshPhase.pending) :
      SchedStep N s
        ⟨s.units.set i { u with phase := RefreshPhase.running }, s.held + 1⟩
  | finish {s : SchedulerState} (i : Nat) (u : RefreshUnit)
      (outcome : RefreshOutcome)
      (hu : s.units.get? i = some u) (hp : u.phase = RefreshPhase.running) :
      SchedStep N s
        ⟨s.units.set i { u with phase := RefreshPhase.done outcome }, s.held - 1⟩

inductive SchedReachable (N : Nat) (s0 : SchedulerState) : SchedulerState → Prop
  | refl : SchedReachable N s0 s0
  | tail {t r : SchedulerState} :
      SchedReachable N s0 t → SchedStep N t r → SchedReachable N s0 r

/-- A tick's initial state: one pending unit per due credential, no slot held. -/
def initialSched (providers : List String) : SchedulerState :=
  ⟨providers.map (fun p => ⟨p, RefreshPhase.pending⟩), 0⟩

/-! # Theorems -/

/-! ## Shared helper lemmas -/

theorem goEqualFold_refl (s : String) : goEqualFold s s = true := by
  simp [goEqualFold]

theorem getByID_eq_id {reg : List Auth} {i : String} {a : Auth}
    (h : getByID reg i = some a) : a.id = i := by
  have h2 := List.find?_some h
  simpa using h2

theorem defaultID_provider (a u : Auth) : (defaultID a u).provider = u.provider := by
  unfold defaultID; split <;> rfl

theorem defaultID_metadata (a u : Auth) : (defaultID a u).metadata = u.metadata := by
  unfold defaultID; split <;> rfl

theorem defaultProvider_id (a u : Auth) : (defaultProvider a u).id = u.id := by
  unfold defaultProvider; split <;> rfl

theorem defaultProvider_metadata (a u : Auth) :
    (defaultProvider a u).metadata = u.metadata := by
  unfold defaultProvider; split <;> rfl

theorem defaultRuntime_id (a u : Auth) : (defaultRuntime a u).id = u.id := by
  unfold defaultRuntime; split <;> rfl

theorem defaultRuntime_provider (a u : Auth) :
    (defaultRuntime a u).provider = u.provider := by
  unfold defaultRuntime; split <;> rfl

theorem defaultRuntime_metadata (a u : Auth) :
    (defaultRuntime a u).metadata = u.metadata := by
  unfold defaultRuntime; split <;> rfl

theorem refreshedRecord_id (a : Auth) (o : Option Auth) (now : Nat) :
    (refreshedRecord a o now).id = (defaultID a (o.getD a)).id := by
  unfold refreshedRecord
  simp [defaultRuntime_id, defaultProvider_id]

theorem refreshedRecord_provider (a : Auth) (o : Option Auth) (now : Nat) :
    (refreshedRecord a o now).provider =
      (defaultProvider a (defaultID a (o.getD a))).provider := by
  unfold refreshedRecord
  simp [defaultRuntime_provider]

theorem refreshedRecord_metadata (a : Auth) (o : Option Auth) (now : Nat) :
    (refreshedRecord a o now).metadata = (o.getD a).metadata := by
  unfold refreshedRecord
  simp [defaultRuntime_metadata, defaultProvider_metadata, defaultID_metadata]

theorem refreshedRecord_stamps (a : Auth) (o : Option Auth) (now : Nat) :
    (refreshedRecord a o now).lastRefreshedAt = now ∧
    (refreshedRecord a o now).nextRefreshAfter = 0 ∧
    (refreshedRecord a o now).lastError = none ∧
    (refreshedRecord a o now).updatedAt = now := by
  unfold refreshedRecord
  simp

theorem getByID_map_replace (reg : List Auth) (a : Auth)
    (h : (reg.find? (fun r => r.id == a.id)).isSome = true) :
    getByID (reg.map (fun r => if r.id == a.id then a else r)) a.id = some a := by
  induction reg with
  | nil => simp [List.find?] at h
  | cons r rest ih =>
    by_cases hr : (r.id == a.id) = true
    · simp [getByID, List.find?, hr]
    · simp only [List.find?, hr] at h
      have h2 := ih h
      simp only [getByID] at h2 ⊢
      simpa [List.find?, hr] using h2

theorem registryUpdate_ok {reg : List Auth} {a prev : Auth}
    (hfind : getByID reg a.id = some prev) (hprov : prev.provider = a.provider) :
    (registryUpdate reg a).2 = Except.ok a ∧
    getByID (registryUpdate reg a).1 a.id = some a := by
  have hfind2 : reg.find? (fun r => r.id == a.id) = some prev := hfind
  unfold registryUpdate
  rw [hfind2]
  dsimp only
  rw [if_pos hprov]
  exact ⟨rfl, getByID_map_replace reg a (by rw [hfind2]; rfl)⟩

/-- C1: when the pre-checks pass and `Executor.Refresh` succeeds but the
returned record's ID (after empty-field defaulting) differs from the stored
record's, the handler answers 500 `executor returned mismatched auth id`;
when the ID matches but the provider (after defaulting) fails the
case-insensitive comparison, it answers 500 `executor returned mismatched
provider`.  In both cases `refreshed = false` and the registry is returned
untouched — for every update function, since the handler never reaches the
update call. -/
theorem forceRefresh_executor_mismatch
    (hasExec : String → Bool) (refresh : Auth → Option Auth × Option String)
    (update : List Auth → Auth → List Auth × Except String (Option Auth))
    (now : Nat) (reg : List Auth) (req : ForceRefreshRequest) (auth u : Auth)
    (hpre : passesPreChecks hasExec reg req auth)
    (hrefresh : refresh auth = (some u, none)) :
    ((defaultID auth u).id ≠ auth.id →
      failsWith (postForceRefreshTokens hasExec refresh update now reg req)
        500 "executor returned mismatched auth id" reg) ∧
    ((defaultID auth u).id = auth.id →
      goEqualFold (defaultProvider auth (defaultID auth u)).provider
        auth.provider = false →
      failsWith (postForceRefreshTokens hasExec refresh update now reg req)
        500 "executor returned mismatched provider" reg) := by
  obtain ⟨h1, h2, h3, h4⟩ := hpre
  constructor
  · intro hid
    unfold postForceRefreshTokens
    simp [h1, h2, h3, h4, hrefresh, hid, failsWith]
  · intro hid hprov
    unfold postForceRefreshTokens
    simp [h1, h2, h3, h4, hrefresh, hid, hprov, failsWith]

theorem forceRefresh_executor_mismatch_witness :
    failsWith
      (postForceRefreshTokens (fun _ => true)
        (fun _ => (some { id := "other", provider := "codex" }, none))
        managerUpdate 7 [{ id := "a", provider := "codex" }] ⟨"a", ""⟩)
      500 "executor returned mismatched auth id"
      [{ id := "a", provider := "codex" }] ∧
    failsWith
      (postForceRefreshTokens (fun _ => true)
        (fun _ => (some { id := "a", provider := "mismatched" }, none))
        managerUpdate 7 [{ id := "a", provider := "codex" }] ⟨"a", ""⟩)
      500 "executor returned mismatched provider"
      [{ id := "a", provider := "codex" }] := by
  constructor
  · exact (forceRefresh_executor_mismatch (fun _ => true)
      (fun _ => (some { id := "other", provider := "codex" }, none))
      managerUpdate 7 [{ id := "a", provider := "codex" }] ⟨"a", ""⟩
      { id := "a", provider := "codex" } { id := "other", provider := "codex" }
      (by decide) (by decide)).1 (by decide)
  · exact (forceRefresh_executor_mismatch (fun _ => true)
      (fun _ => (some { id := "a", provider := "mismatched" }, none))
      managerUpdate 7 [{ id := "a", provider := "codex" }] ⟨"a", ""⟩
      { id := "a", provider := "codex" } { id := "a", provider := "mismatched" }
      (by decide) (by decide)).2 (by decide) (by decide)

/-- C2: when the pre-checks pass, `Executor.Refresh` succeeds, the contract
checks pass, and the Manager update of the refreshed record fails with error
`e`, the handler answers 500 carrying `e` verbatim with `refreshed = false`
(the final registry being whatever the update function left). -/
theorem forceRefresh_update_failure
    (hasExec : String → Bool) (refresh : Auth → Option Auth × Option String)
    (update : List Auth → Auth → List Auth × Except String (Option Auth))
    (now : Nat) (reg reg2 : List Auth) (req : ForceRefreshRequest)
    (auth : Auth) (updOpt : Option Auth) (e : String)
    (hpre : passesPreChecks hasExec reg req auth)
    (hrefresh : refresh auth = (updOpt, none))
    (hid : (defaultID auth (updOpt.getD auth)).id = auth.id)
    (hprov : goEqualFold
      (defaultProvider auth (defaultID auth (updOpt.getD auth))).provider
      auth.provider = true)
    (hupd : update reg (refreshedRecord auth updOpt now) =
      (reg2, Except.error e)) :
    failsWith (postForceRefreshTokens hasExec refresh update now reg req)
      500 e reg2 := by
  obtain ⟨h1, h2, h3, h4⟩ := hpre
  unfold postForceRefreshTokens
  simp [h1, h2, h3, h4, hrefresh, hid, hprov, hupd, failsWith]

theorem forceRefresh_update_failure_witness :
    failsWith
      (postForceRefreshTokens (fun _ => true) (fun _ => (none, none))
        (fun r _ => (r, Except.error "persist failed"))
        7 [{ id := "a", provider := "codex" }] ⟨"a", ""⟩)
      500 "persist failed" [{ id := "a", provider := "codex" }] :=
  forceRefresh_update_failure (fun _ => true) (fun _ => (none, none))
    (fun r _ => (r, Except.error "persist failed"))
    7 [{ id := "a", provider := "codex" }] [{ id := "a", provider := "codex" }]
    ⟨"a", ""⟩ { id := "a", provider := "codex" } none "persist failed"
    (by decide) (by decide) (by decide) (by decide) rfl

/-- C3: each guard that precedes a successful refresh maps to its specified
response — empty trimmed auth id to 400 `auth_id is required`; an unknown id
to 404 `auth not found`; a non-empty provider filter failing the
case-insensitive match to 400 `provider mismatch`; a provider with no
registered executor to 400 `executor not registered`; and an
`Executor.Refresh` error to 400 with the message verbatim — each with
`refreshed = false` and the registry untouched. -/
theorem forceRefresh_preSuccess_failures
    (hasExec : String → Bool) (refresh : Auth → Option Auth × Option String)
    (update : List Auth → Auth → List Auth × Except String (Option Auth))
    (now : Nat) (reg : List Auth) (req : ForceRefreshRequest) :
    (goTrimSpace req.authID = "" →
      failsWith (postForceRefreshTokens hasExec refresh update now reg req)
        400 "auth_id is required" reg) ∧
    (goTrimSpace req.authID ≠ "" →
      getByID reg (goTrimSpace req.authID) = none →
      failsWith (postForceRefreshTokens hasExec refresh update now reg req)
        404 "auth not found" reg) ∧
    (∀ auth : Auth, goTrimSpace req.authID ≠ "" →
      getByID reg (goTrimSpace req.authID) = some auth →
      goToLower (goTrimSpace req.provider) ≠ "" →
      goEqualFold (goToLower (goTrimSpace req.provider)) auth.provider = false →
      failsWith (postForceRefreshTokens hasExec refresh update now reg req)
        400 "provider mismatch" reg) ∧
    (∀ auth : Auth, goTrimSpace req.authID ≠ "" →
      getByID reg (goTrimSpace req.authID) = some auth →
      ¬(goToLower (goTrimSpace req.provider) ≠ "" ∧
        goEqualFold (goToLower (goTrimSpace req.provider)) auth.provider = false) →
      hasExec (goTrimSpace auth.provider) = false →
      failsWith (postForceRefreshTokens hasExec refresh update now reg req)
        400 "executor not registered" reg) ∧
    (∀ (auth : Auth) (r : Option Auth) (msg : String),
      passesPreChecks hasExec reg req auth →
      refresh auth = (r, some msg) →
      failsWith (postForceRefreshTokens hasExec refresh update now reg req)
        400 msg reg) := by
  refine ⟨?_, ?_, ?_, ?_, ?_⟩
  · intro h
    unfold postForceRefreshTokens
    simp [h, failsWith]
  · intro h h2
    unfold postForceRefreshTokens
    simp [h, h2, failsWith]
  · intro auth h h2 h3 h4
    unfold postForceRefreshTokens
    simp [h, h2, h3, h4, failsWith]
  · intro auth h h2 h3 h4
    unfold postForceRefreshTokens
    simp [h, h2, h3, h4, failsWith]
  · intro auth r msg hpre h5
    obtain ⟨h1, h2, h3, h4⟩ := hpre
    unfold postForceRefreshTokens
    simp [h1, h2, h3, h4, h5, failsWith]

theorem forceRefresh_preSuccess_failures_witness :
    failsWith (postForceRefreshTokens (fun _ => true) (fun _ => (none, none))
        managerUpdate 7 [] ⟨" ", ""⟩)
      400 "auth_id is required" [] ∧
    failsWith (postForceRefreshTokens (fun _ => true) (fun _ => (none, none))
        managerUpdate 7 [] ⟨"missing", ""⟩)
      404 "auth not found" [] ∧
    failsWith (postForceRefreshTokens (fun _ => true) (fun _ => (none, none))
        managerUpdate 7 [{ id := "a", provider := "codex" }] ⟨"a", "other"⟩)
      400 "provider mismatch" [{ id := "a", provider := "codex" }] ∧
    failsWith (postForceRefreshTokens (fun _ => false) (fun _ => (none, none))
        managerUpdate 7 [{ id := "a", provider := "codex" }] ⟨"a", ""⟩)
      400 "executor not registered" [{ id := "a", provider := "codex" }] ∧
    failsWith (postForceRefreshTokens (fun _ => true)
        (fun _ => (none, some "refresh failed"))
        managerUpdate 7 [{ id := "a", provider := "codex" }] ⟨"a", ""⟩)
      400 "refresh failed" [{ id := "a", provider := "codex" }] := by
  refine ⟨?_, ?_, ?_, ?_, ?_⟩
  · exact (forceRefresh_preSuccess_failures (fun _ => true) (fun _ => (none, none))
      managerUpdate 7 [] ⟨" ", ""⟩).1 (by decide)
  · exact (forceRefresh_preSuccess_failures (fun _ => true) (fun _ => (none, none))
      managerUpdate 7 [] ⟨"missing", ""⟩).2.1 (by decide) (by decide)
  · exact (forceRefresh_preSuccess_failures (fun _ => true) (fun _ => (none, none))
      managerUpdate 7 [{ id := "a", provider := "codex" }] ⟨"a", "other"⟩).2.2.1
      { id := "a", provider := "codex" } (by decide) (by decide) (by decide) (by decide)
  · exact (forceRefresh_preSuccess_failures (fun _ => false) (fun _ => (none, none))
      managerUpdate 7 [{ id := "a", provider := "codex" }] ⟨"a", ""⟩).2.2.2.1
      { id := "a", provider := "codex" } (by decide) (by decide) (by decide) (by decide)
  · exact (forceRefresh_preSuccess_failures (fun _ => true)
      (fun _ => (none, some "refresh failed"))
      managerUpdate 7 [{ id := "a", provider := "codex" }] ⟨"a", ""⟩).2.2.2.2
      { id := "a", provider := "codex" } none "refresh failed" (by decide) (by decide)

/-- C4: on a succeeding force-refresh (pre-checks pass, `Executor.Refresh`
returns a record whose ID and Provider match the stored record's up to the
empty-field defaulting), the response is 200 with `refreshed = true` and the
refreshed payload, the stored record is replaced by the refreshed one —
carrying the executor's Metadata, `LastRefreshedAt = now`, `NextRefreshAfter`
cleared to zero, `LastError` cleared, `UpdatedAt = now`. -/
theorem forceRefresh_success_effects
    (hasExec : String → Bool) (refresh : Auth → Option Auth × Option String)
    (now : Nat) (reg : List Auth) (req : ForceRefreshRequest) (auth u : Auth)
    (hpre : passesPreChecks hasExec reg req auth)
    (hrefresh : refresh auth = (some u, none))
    (hid : u.id = auth.id ∨ u.id = "")
    (hprov : u.provider = auth.provider ∨ u.provider = "") :
    (postForceRefreshTokens hasExec refresh managerUpdate now reg req).status = 200 ∧
    (postForceRefreshTokens hasExec refresh managerUpdate now reg req).body.refreshed = true ∧
    (postForceRefreshTokens hasExec refresh managerUpdate now reg req).body.auth =
      some (refreshedRecord auth (some u) now) ∧
    getByID (postForceRefreshTokens hasExec refresh managerUpdate now reg req).registry
      auth.id = some (refreshedRecord auth (some u) now) ∧
    (refreshedRecord auth (some u) now).metadata = u.metadata ∧
    (refreshedRecord auth (some u) now).lastRefreshedAt = now ∧
    (refreshedRecord auth (some u) now).nextRefreshAfter = 0 ∧
    (refreshedRecord auth (some u) now).lastError = none ∧
    (refreshedRecord auth (some u) now).updatedAt = now := by
  obtain ⟨h1, h2, h3, h4⟩ := hpre
  have hauthid : auth.id = goTrimSpace req.authID := getByID_eq_id h2
  have hne : auth.id ≠ "" := by rw [hauthid]; exact h1
  have dID : (defaultID auth u).id = auth.id := by
    unfold defaultID
    split
    next heq => rfl
    next hfalse =>
      rcases hid with h | h
      · exact h
      · exact absurd h hfalse
  have dProv : (defaultProvider auth (defaultID auth u)).provider = auth.provider := by
    unfold defaultProvider
    split
    next heq => rfl
    next hfalse =>
      rw [defaultID_provider] at hfalse ⊢
      rcases hprov with h | h
      · exact h
      · exact absurd h hfalse
  have hfold : goEqualFold (defaultProvider auth (defaultID auth u)).provider
      auth.provider = true := by
    rw [dProv]; exact goEqualFold_refl _
  have ffid : (refreshedRecord auth (some u) now).id = auth.id := by
    rw [refreshedRecord_id]; simpa using dID
  have ffprov : (refreshedRecord auth (some u) now).provider = auth.provider := by
    rw [refreshedRecord_provider]; simpa using dProv
  have hfind : getByID reg (refreshedRecord auth (some u) now).id = some auth := by
    rw [ffid, hauthid]; exact h2
  have hupd := registryUpdate_ok hfind ffprov.symm
  have hm : managerUpdate reg (refreshedRecord auth (some u) now) =
      ((registryUpdate reg (refreshedRecord auth (some u) now)).1,
        Except.ok (some (refreshedRecord auth (some u) now))) := by
    unfold managerUpdate
    rcases hru : registryUpdate reg (refreshedRecord auth (some u) now) with ⟨reg2, res⟩
    rw [hru] at hupd
    rcases hupd with ⟨hres, hget⟩
    simp only at hres
    rw [hres]
  obtain ⟨stamps1, stamps2, stamps3, stamps4⟩ := refreshedRecord_stamps auth (some u) now
  have hga : getByID reg auth.id = some auth := by rw [hauthid]; exact h2
  have hupd2 : getByID (registryUpdate reg (refreshedRecord auth (some u) now)).1
      auth.id = some (refreshedRecord auth (some u) now) := by
    rw [← ffid]; exact hupd.2
  refine ⟨?_, ?_, ?_, ?_, by simpa using refreshedRecord_metadata auth (some u) now,
    stamps1, stamps2, stamps3, stamps4⟩ <;>
  · unfold postForceRefreshTokens
    simp [← hauthid, hne, hga, h3, h4, hrefresh, dID, hfold, hm, ffid, hupd2]

theorem forceRefresh_success_effects_witness :
    (postForceRefreshTokens (fun _ => true)
      (fun _ => (some { id := "a", provider := "codex", metadata := [("refreshed", "true")] }, none))
      managerUpdate 7 [{ id := "a", provider := "codex", metadata := [("access_token", "old")] }] ⟨"a", ""⟩).status = 200 ∧
    (postForceRefreshTokens (fun _ => true)
      (fun _ => (some { id := "a", provider := "codex", metadata := [("refreshed", "true")] }, none))
      managerUpdate 7 [{ id := "a", provider := "codex", metadata := [("access_token", "old")] }] ⟨"a", ""⟩).body.refreshed = true ∧
    (postForceRefreshTokens (fun _ => true)
      (fun _ => (some { id := "a", provider := "codex", metadata := [("refreshed", "true")] }, none))
      managerUpdate 7 [{ id := "a", provider := "codex", metadata := [("access_token", "old")] }] ⟨"a", ""⟩).body.auth =
      some (refreshedRecord
        { id := "a", provider := "codex", metadata := [("access_token", "old")] }
        (some { id := "a", provider := "codex", metadata := [("refreshed", "true")] })
        7) ∧
    getByID (postForceRefreshTokens (fun _ => true)
      (fun _ => (some { id := "a", provider := "codex", metadata := [("refreshed", "true")] }, none))
      managerUpdate 7 [{ id := "a", provider := "codex", metadata := [("access_token", "old")] }] ⟨"a", ""⟩).registry "a" =
      some (refreshedRecord
        { id := "a", provider := "codex", metadata := [("access_token", "old")] }
        (some { id := "a", provider := "codex", metadata := [("refreshed", "true")] })
        7) ∧
    (refreshedRecord
      { id := "a", provider := "codex", metadata := [("access_token", "old")] }
      (some { id := "a", provider := "codex", metadata := [("refreshed", "true")] })
      7).metadata = [("refreshed", "true")] := by
  have h := forceRefresh_success_effects (fun _ => true)
    (fun _ => (some { id := "a", provider := "codex", metadata := [("refreshed", "true")] }, none))
    7 [{ id := "a", provider := "codex", metadata := [("access_token", "old")] }]
    ⟨"a", ""⟩
    { id := "a", provider := "codex", metadata := [("access_token", "old")] }
    { id := "a", provider := "codex", metadata := [("refreshed", "true")] }
    (by decide) rfl (Or.inl rfl) (Or.inl rfl)
  exact ⟨h.1, h.2.1, h.2.2.1, h.2.2.2.1, h.2.2.2.2.1⟩

/-- C9: when `Executor.Refresh` returns a nil record with a nil error, the
handler treats the refresh as successful, proceeding with a clone of the
stored record: the response is 200 with `refreshed = true`, and the record
stored is the old one with `LastRefreshedAt = now`, `NextRefreshAfter`
cleared, `LastError` cleared and `UpdatedAt = now`. -/
theorem forceRefresh_nil_success
    (hasExec : String → Bool) (refresh : Auth → Option Auth × Option String)
    (now : Nat) (reg : List Auth) (req : ForceRefreshRequest) (auth : Auth)
    (hpre : passesPreChecks hasExec reg req auth)
    (hrefresh : refresh auth = (none, none)) :
    (postForceRefreshTokens hasExec refresh managerUpdate now reg req).status = 200 ∧
    (postForceRefreshTokens hasExec refresh managerUpdate now reg req).body.refreshed = true ∧
    (postForceRefreshTokens hasExec refresh managerUpdate now reg req).body.auth =
      some { auth with lastRefreshedAt := now, nextRefreshAfter := 0, lastError := none, updatedAt := now } ∧
    getByID (postForceRefreshTokens hasExec refresh managerUpdate now reg req).registry
      auth.id = some { auth with lastRefreshedAt := now, nextRefreshAfter := 0, lastError := none, updatedAt := now } := by
  obtain ⟨h1, h2, h3, h4⟩ := hpre
  have hauthid : auth.id = goTrimSpace req.authID := getByID_eq_id h2
  have hne : auth.id ≠ "" := by rw [hauthid]; exact h1
  have e1 : defaultID auth auth = auth := by unfold defaultID; rw [if_neg hne]
  have e2 : defaultProvider auth auth = auth := by unfold defaultProvider; split <;> rfl
  have e3 : defaultRuntime auth auth = auth := by unfold defaultRuntime; split <;> rfl
  have hrr : refreshedRecord auth none now =
      { auth with lastRefreshedAt := now, nextRefreshAfter := 0, lastError := none, updatedAt := now } := by
    unfold refreshedRecord
    simp [e1, e2, e3]
  have hga : getByID reg auth.id = some auth := by rw [hauthid]; exact h2
  have hfind : getByID reg (refreshedRecord auth none now).id = some auth := by
    rw [hrr]; exact hga
  have hupd := registryUpdate_ok hfind (by rw [hrr])
  have hm : managerUpdate reg (refreshedRecord auth none now) =
      ((registryUpdate reg (refreshedRecord auth none now)).1,
        Except.ok (some (refreshedRecord auth none now))) := by
    unfold managerUpdate
    rcases hru : registryUpdate reg (refreshedRecord auth none now) with ⟨reg2, res⟩
    rw [hru] at hupd
    rcases hupd with ⟨hres, hget⟩
    simp only at hres
    rw [hres]
  have hupd2 : getByID (registryUpdate reg (refreshedRecord auth none now)).1 auth.id =
      some (refreshedRecord auth none now) := by
    have h5 := hupd.2
    rw [hrr] at h5 ⊢
    exact h5
  have hm2 : managerUpdate reg { auth with lastRefreshedAt := now, nextRefreshAfter := 0, lastError := none, updatedAt := now } = ((registryUpdate reg { auth with lastRefreshedAt := now, nextRefreshAfter := 0, lastError := none, updatedAt := now }).1, Except.ok (some { auth with lastRefreshedAt := now, nextRefreshAfter := 0, lastError := none, updatedAt := now })) := by
    rw [← hrr]; exact hm
  have hupd3 : getByID (registryUpdate reg { auth with lastRefreshedAt := now, nextRefreshAfter := 0, lastError := none, updatedAt := now }).1 auth.id = some { auth with lastRefreshedAt := now, nextRefreshAfter := 0, lastError := none, updatedAt := now } := by
    rw [← hrr]; exact hupd2
  refine ⟨?_, ?_, ?_, ?_⟩ <;>
  · unfold postForceRefreshTokens
    simp [← hauthid, hne, hga, h3, h4, hrefresh, e1, e2, goEqualFold_refl, hrr, hm2, hupd3]

theorem forceRefresh_nil_success_witness :
    (postForceRefreshTokens (fun _ => true) (fun _ => (none, none))
      managerUpdate 9 [{ id := "b", provider := "gemini", metadata := [("t", "v")] }]
      ⟨"b", ""⟩).status = 200 ∧
    (postForceRefreshTokens (fun _ => true) (fun _ => (none, none))
      managerUpdate 9 [{ id := "b", provider := "gemini", metadata := [("t", "v")] }]
      ⟨"b", ""⟩).body.refreshed = true ∧
    getByID (postForceRefreshTokens (fun _ => true) (fun _ => (none, none))
      managerUpdate 9 [{ id := "b", provider := "gemini", metadata := [("t", "v")] }]
      ⟨"b", ""⟩).registry "b" =
      some { id := "b", provider := "gemini", metadata := [("t", "v")], lastRefreshedAt := 9, updatedAt := 9 } := by
  have h := forceRefresh_nil_success (fun _ => true) (fun _ => (none, none))
    9 [{ id := "b", provider := "gemini", metadata := [("t", "v")] }] ⟨"b", ""⟩
    { id := "b", provider := "gemini", metadata := [("t", "v")] }
    (by decide) rfl
  exact ⟨h.1, h.2.1, h.2.2.2⟩

theorem isHexChar_hexDigitChar (m : Nat) (h : m < 16) :
    isHexChar (hexDigitChar m) = true := by
  interval_cases m <;> decide

theorem hexList_length (l v : Nat) : (hexList l v).length = l := by
  induction l generalizing v with
  | zero => rfl
  | succ l ih => simp [hexList, ih]

theorem hexList_hex (l v : Nat) : (hexList l v).all isHexChar = true := by
  induction l generalizing v with
  | zero => rfl
  | succ l ih =>
    simp [hexList, List.all_append, ih]
    exact isHexChar_hexDigitChar _ (Nat.mod_lt _ (by norm_num))

theorem expectLit_append (lit rest : List Char) :
    expectLit lit (lit ++ rest) = some rest := by
  induction lit with
  | nil => rfl
  | cons c cs ih => simp [expectLit, ih]

theorem expectHexRun_append (n : Nat) (d rest : List Char)
    (hlen : d.length = n) (hhex : d.all isHexChar = true) :
    expectHexRun n (d ++ rest) = some rest := by
  induction d generalizing n with
  | nil => simp at hlen; subst hlen; rfl
  | cons c cs ih =>
    simp at hlen
    subst hlen
    rw [List.all_cons, Bool.and_eq_true] at hhex
    simp [expectHexRun, hhex.1]
    exact ih _ rfl hhex.2

theorem generateFakeUserID_valid (n : Nat) :
    isValidUserID (generateFakeUserID n) = true := by
  unfold isValidUserID checkUserID generateFakeUserID
  simp only [List.append_assoc]
  rw [expectLit_append]
  simp only [Option.bind_eq_bind, Option.some_bind]
  rw [expectHexRun_append 64 _ _ (hexList_length 64 n) (hexList_hex 64 n)]
  simp only [Option.some_bind]
  rw [expectLit_append]
  simp only [Option.some_bind]
  rw [expectHexRun_append 8 _ _ (hexList_length 8 n) (hexList_hex 8 n)]
  simp only [Option.some_bind]
  rw [expectLit_append]
  simp only [Option.some_bind]
  rw [expectHexRun_append 4 _ _ (hexList_length 4 n) (hexList_hex 4 n)]
  simp only [Option.some_bind]
  rw [expectLit_append]
  simp only [Option.some_bind]
  rw [expectHexRun_append 4 _ _ (hexList_length 4 n) (hexList_hex 4 n)]
  simp only [Option.some_bind]
  rw [expectLit_append]
  simp only [Option.some_bind]
  rw [expectHexRun_append 4 _ _ (hexList_length 4 n) (hexList_hex 4 n)]
  simp only [Option.some_bind]
  rw [expectLit_append]
  simp only [Option.some_bind]
  rw [show expectHexRun 12 (hexList 12 n) = some [] from by
    have := expectHexRun_append 12 (hexList 12 n) [] (hexList_length 12 n) (hexList_hex 12 n)
    simpa using this]

theorem expectLit_some (lit : List Char) :
    ∀ cs rest : List Char, expectLit lit cs = some rest ↔ cs = lit ++ rest := by
  induction lit with
  | nil =>
    intro cs rest
    constructor
    · intro h
      have h2 : some cs = some rest := h
      simpa using Option.some.inj h2
    · intro h
      show some cs = some rest
      simp at h
      rw [h]
  | cons p ps ih =>
    intro cs rest
    cases cs with
    | nil =>
      constructor
      · intro h
        exact absurd h (by simp [expectLit])
      · intro h
        simp at h
    | cons c cs2 =>
      by_cases hcp : c = p
      · subst hcp
        have hstep : expectLit (c :: ps) (c :: cs2) = expectLit ps cs2 := by
          show (if c = c then expectLit ps cs2 else none) = expectLit ps cs2
          rw [if_pos rfl]
        rw [hstep, ih]
        constructor
        · intro h
          rw [List.cons_append]
          exact congrArg (fun l => c :: l) h
        · intro h
          rw [List.cons_append] at h
          injection h with h1 h2
      · have hstep : expectLit (p :: ps) (c :: cs2) = none := by
          show (if c = p then expectLit ps cs2 else none) = none
          rw [if_neg hcp]
        rw [hstep]
        constructor
        · intro h
          exact absurd h (by simp)
        · intro h
          injection h with h1 h2
          exact absurd h1 hcp

theorem expectHexRun_some (n : Nat) :
    ∀ cs rest : List Char, expectHexRun n cs = some rest ↔
      ∃ d : List Char, cs = d ++ rest ∧ d.length = n ∧ d.all isHexChar = true := by
  induction n with
  | zero =>
    intro cs rest
    constructor
    · intro h
      have h2 : some cs = some rest := h
      exact ⟨[], by simpa using Option.some.inj h2, rfl, rfl⟩
    · rintro ⟨d, hcs, hlen, hhex⟩
      have hd : d = [] := List.length_eq_zero.mp hlen
      subst hd
      simp at hcs
      show some cs = some rest
      rw [hcs]
  | succ n ih =>
    intro cs rest
    cases cs with
    | nil =>
      constructor
      · intro h
        exact absurd h (by simp [expectHexRun])
      · rintro ⟨d, hcs, hlen, hhex⟩
        cases d with
        | nil => simp at hlen
        | cons a as => simp at hcs
    | cons c cs2 =>
      by_cases hc : isHexChar c = true
      · have hstep : expectHexRun (n + 1) (c :: cs2) = expectHexRun n cs2 := by
          show (if isHexChar c then expectHexRun n cs2 else none) = expectHexRun n cs2
          rw [if_pos hc]
        rw [hstep, ih]
        constructor
        · rintro ⟨d, hcs, hlen, hhex⟩
          refine ⟨c :: d, ?_, ?_, ?_⟩
          · rw [hcs]
            rfl
          · rw [List.length_cons, hlen]
          · rw [List.all_cons, hc, hhex]
            rfl
        · rintro ⟨d, hcs, hlen, hhex⟩
          cases d with
          | nil => exact absurd hlen (by simp)
          | cons a as =>
            injection hcs with h1 h2
            rw [List.all_cons, Bool.and_eq_true] at hhex
            have hlen2 : as.length = n := by simpa using hlen
            exact ⟨as, h2, hlen2, hhex.2⟩
      · have hstep : expectHexRun (n + 1) (c :: cs2) = none := by
          show (if isHexChar c then expectHexRun n cs2 else none) = none
          rw [if_neg hc]
        rw [hstep]
        constructor
        · intro h
          exact absurd h (by simp)
        · rintro ⟨d, hcs, hlen, hhex⟩
          cases d with
          | nil => exact absurd hlen (by simp)
          | cons a as =>
            injection hcs with h1 h2
            rw [List.all_cons, Bool.and_eq_true] at hhex
            exact absurd (h1 ▸ hhex.1) hc

theorem isValidUserID_iff (s : String) :
    isValidUserID s = true ↔ ConformsUserID s := by
  constructor
  · intro h
    unfold isValidUserID at h
    have hP : checkUserID s.data = some [] := by
      rcases hc : checkUserID s.data with _ | l
      · rw [hc] at h
        simp at h
      · rw [hc] at h
        cases l with
        | nil => rfl
        | cons a as => simp at h
    unfold checkUserID at hP
    simp only [Option.bind_eq_bind, Option.bind_eq_some] at hP
    obtain ⟨c1, hc1, c2, hc2, c3, hc3, c4, hc4, c5, hc5, c6, hc6, c7, hc7, c8, hc8,
      c9, hc9, c10, hc10, c11, hc11, hc12⟩ := hP
    rw [expectLit_some] at hc1 hc3 hc5 hc7 hc9 hc11
    rw [expectHexRun_some] at hc2 hc4 hc6 hc8 hc10 hc12
    obtain ⟨d, hd, hdlen, hdhex⟩ := hc2
    obtain ⟨g1, hg1, hg1len, hg1hex⟩ := hc4
    obtain ⟨g2, hg2, hg2len, hg2hex⟩ := hc6
    obtain ⟨g3, hg3, hg3len, hg3hex⟩ := hc8
    obtain ⟨g4, hg4, hg4len, hg4hex⟩ := hc10
    obtain ⟨g5, hg5, hg5len, hg5hex⟩ := hc12
    refine ⟨d, g1, g2, g3, g4, g5, ?_, hdlen, hg1len, hg2len, hg3len, hg4len, hg5len,
      hdhex, hg1hex, hg2hex, hg3hex, hg4hex, hg5hex⟩
    rw [hc1, hd, hc3, hg1, hc5, hg2, hc7, hg3, hc9, hg4, hc11, hg5]
    simp [List.append_assoc]
  · rintro ⟨d, g1, g2, g3, g4, g5, hs, h64, h8l, h4a, h4b, h4c, h12,
      hx0, hx1, hx2, hx3, hx4, hx5⟩
    unfold isValidUserID checkUserID
    rw [hs]
    simp only [List.append_assoc]
    rw [expectLit_append]
    simp only [Option.bind_eq_bind, Option.some_bind]
    rw [expectHexRun_append 64 d _ h64 hx0]
    simp only [Option.some_bind]
    rw [expectLit_append]
    simp only [Option.some_bind]
    rw [expectHexRun_append 8 g1 _ h8l hx1]
    simp only [Option.some_bind]
    rw [expectLit_append]
    simp only [Option.some_bind]
    rw [expectHexRun_append 4 g2 _ h4a hx2]
    simp only [Option.some_bind]
    rw [expectLit_append]
    simp only [Option.some_bind]
    rw [expectHexRun_append 4 g3 _ h4b hx3]
    simp only [Option.some_bind]
    rw [expectLit_append]
    simp only [Option.some_bind]
    rw [expectHexRun_append 4 g4 _ h4c hx4]
    simp only [Option.some_bind]
    rw [expectLit_append]
    simp only [Option.some_bind]
    rw [show expectHexRun 12 g5 = some [] from by
      have h2 := expectHexRun_append 12 g5 [] h12 hx5
      simpa using h2]

theorem hexDigitChar_inj (a b : Nat) (ha : a < 16) (hb : b < 16)
    (h : hexDigitChar a = hexDigitChar b) : a = b := by
  interval_cases a <;> interval_cases b <;> revert h <;> decide

theorem hexList_inj (l : Nat) :
    ∀ v w : Nat, v < 16 ^ l → w < 16 ^ l → hexList l v = hexList l w → v = w := by
  induction l with
  | zero =>
    intro v w hv hw _
    simp [pow_zero] at hv hw
    omega
  | succ l ih =>
    intro v w hv hw h
    simp only [hexList] at h
    have hparts := List.append_inj h (by rw [hexList_length, hexList_length])
    obtain ⟨h1, h2⟩ := hparts
    have hd : hexDigitChar (v % 16) = hexDigitChar (w % 16) := by
      injection h2 with hx hy
    have hv16 : v / 16 < 16 ^ l := by
      rw [pow_succ] at hv
      exact (Nat.div_lt_iff_lt_mul (by norm_num)).mpr hv
    have hw16 : w / 16 < 16 ^ l := by
      rw [pow_succ] at hw
      exact (Nat.div_lt_iff_lt_mul (by norm_num)).mpr hw
    have hq := ih _ _ hv16 hw16 h1
    have hm : v % 16 = w % 16 :=
      hexDigitChar_inj _ _ (Nat.mod_lt _ (by norm_num)) (Nat.mod_lt _ (by norm_num)) hd
    omega

theorem generateFakeUserID_inj (n1 n2 : Nat) (h1 : n1 < 16 ^ 64) (h2 : n2 < 16 ^ 64)
    (h : generateFakeUserID n1 = generateFakeUserID n2) : n1 = n2 := by
  unfold generateFakeUserID at h
  have hdata := congrArg String.data h
  simp only [List.append_assoc] at hdata
  have htail := List.append_cancel_left hdata
  have hparts := List.append_inj htail (by rw [hexList_length, hexList_length])
  exact hexList_inj 64 n1 n2 h1 h2 hparts.1

theorem cacheLookup_map (c : UserIDCache) (k : String) (e : UserIDCacheEntry)
    (h : (c.find? (fun p => p.1 == k)).isSome = true) :
    cacheLookup (c.map (fun p => if p.1 == k then (k, e) else p)) k = some e := by
  induction c with
  | nil => simp [List.find?] at h
  | cons q rest ih =>
    by_cases hq : (q.1 == k) = true
    · simp [cacheLookup, List.find?, hq]
    · simp only [List.find?, hq] at h
      have h2 := ih h
      simp only [cacheLookup] at h2 ⊢
      simpa [List.find?, hq] using h2

theorem cacheLookup_append (c : UserIDCache) (k : String) (e : UserIDCacheEntry)
    (h : c.find? (fun p => p.1 == k) = none) :
    cacheLookup (c ++ [(k, e)]) k = some e := by
  induction c with
  | nil => simp [cacheLookup, List.find?]
  | cons q rest ih =>
    by_cases hq : (q.1 == k) = true
    · simp only [List.find?, hq] at h
      exact absurd h (by simp)
    · simp only [List.find?, hq] at h
      have h2 := ih h
      simp only [cacheLookup] at h2 ⊢
      simpa [List.find?, hq] using h2

theorem cacheLookup_insert (c : UserIDCache) (k : String) (e : UserIDCacheEntry) :
    cacheLookup (cacheInsert c k e) k = some e := by
  unfold cacheInsert
  split
  next hsome => exact cacheLookup_map c k e hsome
  next hnone =>
    refine cacheLookup_append c k e ?_
    rcases hf : c.find? (fun p => p.1 == k) with _ | q
    · exact hf
    · rw [hf] at hnone
      simp at hnone

theorem cachedUserID_hit (provider model : String) (cache : UserIDCache)
    (nonce now e : Nat) (v : String) (hp : provider ≠ "") (hm : model ≠ "")
    (hl : cacheLookup cache (provider ++ "|" ++ model) = some ⟨v, e⟩)
    (ht : now < e) (hv : v ≠ "") (hval : isValidUserID v = true) :
    cachedUserID nonce now cache provider model = (v, cache) := by
  unfold cachedUserID
  rw [if_neg (by push_neg; exact ⟨hp, hm⟩)]
  dsimp only
  rw [hl]
  dsimp only
  rw [if_pos ⟨ht, hv, hval⟩]

theorem cachedUserID_miss (provider model : String) (cache : UserIDCache)
    (nonce now e : Nat) (v : String) (hp : provider ≠ "") (hm : model ≠ "")
    (hl : cacheLookup cache (provider ++ "|" ++ model) = some ⟨v, e⟩)
    (hmiss : e ≤ now ∨ isValidUserID v = false) :
    cachedUserID nonce now cache provider model =
      (generateFakeUserID nonce,
       cacheInsert cache (provider ++ "|" ++ model)
         ⟨generateFakeUserID nonce, now + userIDTTL⟩) := by
  unfold cachedUserID
  rw [if_neg (by push_neg; exact ⟨hp, hm⟩)]
  dsimp only
  rw [hl]
  dsimp only
  rw [if_neg ?_]
  rintro ⟨h1, h2, h3⟩
  rcases hmiss with h | h
  · omega
  · rw [h3] at h
    exact absurd h (by simp)

/-- C5: for a non-empty (provider, model) scope, a call before the stored
entry's one-hour TTL has elapsed returns the identical stored value and
leaves the cache unchanged (so repeated calls agree); once the entry has
expired or its value fails validation, the call returns the freshly minted
id, stores it with expire = now + TTL, and the new value is well-formed and
— for fresh generator randomness — different from the old one. -/
theorem userIDCache_ttl_reuse
    (provider model : String) (cache : UserIDCache) (n1 n2 t0 t e : Nat) (v : String)
    (hp : provider ≠ "") (hm : model ≠ "") :
    (cacheLookup cache (provider ++ "|" ++ model) = some ⟨v, t0 + userIDTTL⟩ →
      t < t0 + userIDTTL → v ≠ "" → isValidUserID v = true →
      cachedUserID n2 t cache provider model = (v, cache)) ∧
    (cacheLookup cache (provider ++ "|" ++ model) = some ⟨v, e⟩ →
      (e ≤ t ∨ isValidUserID v = false) →
      cachedUserID n2 t cache provider model =
        (generateFakeUserID n2,
          cacheInsert cache (provider ++ "|" ++ model)
            ⟨generateFakeUserID n2, t + userIDTTL⟩) ∧
      cacheLookup (cachedUserID n2 t cache provider model).2
        (provider ++ "|" ++ model) = some ⟨generateFakeUserID n2, t + userIDTTL⟩) ∧
    isValidUserID (generateFakeUserID n2) = true ∧
    (v = generateFakeUserID n1 → n1 < 16 ^ 64 → n2 < 16 ^ 64 → n1 ≠ n2 →
      generateFakeUserID n2 ≠ v) := by
  refine ⟨?_, ?_, generateFakeUserID_valid n2, ?_⟩
  · intro hl ht hv hval
    exact cachedUserID_hit provider model cache n2 t (t0 + userIDTTL) v hp hm hl ht hv hval
  · intro hl hmiss
    have hres := cachedUserID_miss provider model cache n2 t e v hp hm hl hmiss
    refine ⟨hres, ?_⟩
    rw [hres]
    exact cacheLookup_insert cache (provider ++ "|" ++ model) _
  · intro hveq hb1 hb2 hne heq
    exact hne (generateFakeUserID_inj n1 n2 hb1 hb2 ((heq.trans hveq).symm))

theorem userIDCache_ttl_reuse_witness :
    cachedUserID 2 200
      [("claude" ++ "|" ++ "claude-3-5-sonnet", ⟨generateFakeUserID 1, 100 + userIDTTL⟩)]
      "claude" "claude-3-5-sonnet" =
      (generateFakeUserID 1,
       [("claude" ++ "|" ++ "claude-3-5-sonnet", ⟨generateFakeUserID 1, 100 + userIDTTL⟩)]) ∧
    cachedUserID 2 200
      [("claude" ++ "|" ++ "claude-3-5-sonnet", ⟨generateFakeUserID 1, 150⟩)]
      "claude" "claude-3-5-sonnet" =
      (generateFakeUserID 2,
       cacheInsert [("claude" ++ "|" ++ "claude-3-5-sonnet", ⟨generateFakeUserID 1, 150⟩)]
         ("claude" ++ "|" ++ "claude-3-5-sonnet") ⟨generateFakeUserID 2, 200 + userIDTTL⟩) ∧
    isValidUserID (generateFakeUserID 2) = true ∧
    generateFakeUserID 2 ≠ generateFakeUserID 1 := by
  have hA := userIDCache_ttl_reuse "claude" "claude-3-5-sonnet"
    [("claude" ++ "|" ++ "claude-3-5-sonnet", ⟨generateFakeUserID 1, 100 + userIDTTL⟩)]
    1 2 100 200 0 (generateFakeUserID 1) (by decide) (by decide)
  have hB := userIDCache_ttl_reuse "claude" "claude-3-5-sonnet"
    [("claude" ++ "|" ++ "claude-3-5-sonnet", ⟨generateFakeUserID 1, 150⟩)]
    1 2 100 200 150 (generateFakeUserID 1) (by decide) (by decide)
  refine ⟨hA.1 (by decide) (by decide) (by decide) (by decide),
    (hB.2.1 (by decide) (Or.inl (by decide))).1,
    hA.2.2.1,
    hB.2.2.2 rfl (by decide) (by decide) (by decide)⟩

/-- C7: every generated identity is accepted by the validator, and the
validator accepts exactly the strings conforming to the declarative pattern
`user_` + 64 lowercase-hex chars + `_account__session_` + 8-4-4-4-12
hex UUID, rejecting everything else. -/
theorem userID_pattern_correct (s : String) (n : Nat) :
    (isValidUserID s = true ↔ ConformsUserID s) ∧
    isValidUserID (generateFakeUserID n) = true :=
  ⟨isValidUserID_iff s, generateFakeUserID_valid n⟩

theorem userID_pattern_correct_witness :
    isValidUserID (generateFakeUserID 3) = true ∧
    ConformsUserID (generateFakeUserID 3) := by
  have h := userID_pattern_correct (generateFakeUserID 3) 3
  exact ⟨h.2, h.1.mp h.2⟩

/-- C8: the two cache variants differ in TTL renewal on hits: after any
call of the API-key-scoped variant with a non-empty key the stored entry's
expire is now + TTL (sliding expiration, also on hits), while the
(provider, model)-scoped variant returns a valid unexpired hit with the
cache — hence the stored expire — unchanged. -/
theorem userIDCache_renewal_divergence
    (k provider model : String) (cache : UserIDCache) (nonce now e : Nat) (v : String)
    (hk : k ≠ "") (hp : provider ≠ "") (hm : model ≠ "") :
    cacheLookup ((cachedUserIDApiKey nonce now cache k).2) k =
      some ⟨(cachedUserIDApiKey nonce now cache k).1, now + userIDTTL⟩ ∧
    (cacheLookup cache (provider ++ "|" ++ model) = some ⟨v, e⟩ →
      now < e → v ≠ "" → isValidUserID v = true →
      cachedUserID nonce now cache provider model = (v, cache)) := by
  constructor
  · unfold cachedUserIDApiKey
    rw [if_neg hk]
    dsimp only
    exact cacheLookup_insert cache k _
  · intro hl ht hv hval
    exact cachedUserID_hit provider model cache nonce now e v hp hm hl ht hv hval

theorem userIDCache_renewal_divergence_witness :
    cacheLookup ((cachedUserIDApiKey 9 300
        [("api-key-1", ⟨generateFakeUserID 4, 500⟩)] "api-key-1").2) "api-key-1" =
      some ⟨(cachedUserIDApiKey 9 300
        [("api-key-1", ⟨generateFakeUserID 4, 500⟩)] "api-key-1").1, 300 + userIDTTL⟩ ∧
    cachedUserID 9 300 [("claude" ++ "|" ++ "opus", ⟨generateFakeUserID 4, 500⟩)]
      "claude" "opus" =
      (generateFakeUserID 4, [("claude" ++ "|" ++ "opus", ⟨generateFakeUserID 4, 500⟩)]) := by
  have h := userIDCache_renewal_divergence "api-key-1" "claude" "opus"
    [("claude" ++ "|" ++ "opus", ⟨generateFakeUserID 4, 500⟩)] 9 300 500
    (generateFakeUserID 4) (by decide) (by decide) (by decide)
  have h2 := userIDCache_renewal_divergence "api-key-1" "claude" "opus"
    [("api-key-1", ⟨generateFakeUserID 4, 500⟩)] 9 300 500
    (generateFakeUserID 4) (by decide) (by decide) (by decide)
  exact ⟨h2.1, h.2 (by decide) (by decide) (by decide) (by decide)⟩

/-- C10: an empty scoping component (provider or model, resp. the API key)
bypasses the cache entirely: a freshly generated identity is returned and
the cache is left unchanged. -/
theorem userIDCache_empty_scope_bypass
    (provider model k : String) (nonce now : Nat) (cache : UserIDCache) :
    (provider = "" ∨ model = "" →
      cachedUserID nonce now cache provider model = (generateFakeUserID nonce, cache)) ∧
    (k = "" → cachedUserIDApiKey nonce now cache k = (generateFakeUserID nonce, cache)) := by
  constructor
  · intro h
    unfold cachedUserID
    rw [if_pos h]
  · intro h
    unfold cachedUserIDApiKey
    rw [if_pos h]

theorem userIDCache_empty_scope_bypass_witness :
    cachedUserID 5 10 [("x", ⟨"v", 99⟩)] "" "claude-3-5-sonnet" =
      (generateFakeUserID 5, [("x", ⟨"v", 99⟩)]) ∧
    cachedUserID 5 10 [("x", ⟨"v", 99⟩)] "claude" "" =
      (generateFakeUserID 5, [("x", ⟨"v", 99⟩)]) ∧
    cachedUserIDApiKey 5 10 [("x", ⟨"v", 99⟩)] "" =
      (generateFakeUserID 5, [("x", ⟨"v", 99⟩)]) := by
  refine ⟨(userIDCache_empty_scope_bypass "" "claude-3-5-sonnet" "" 5 10
      [("x", ⟨"v", 99⟩)]).1 (Or.inl rfl),
    (userIDCache_empty_scope_bypass "claude" "" "" 5 10
      [("x", ⟨"v", 99⟩)]).1 (Or.inr rfl),
    (userIDCache_empty_scope_bypass "claude" "claude-3-5-sonnet" "" 5 10
      [("x", ⟨"v", 99⟩)]).2 rfl⟩

theorem count_set (l : List RefreshUnit) :
    ∀ (i : Nat) (u u2 : RefreshUnit), l.get? i = some u →
    ((l.set i u2).filter isRunning).length + (if isRunning u then 1 else 0) =
    (l.filter isRunning).length + (if isRunning u2 then 1 else 0) := by
  induction l with
  | nil => intro i u u2 h; simp at h
  | cons a as ih =>
    intro i u u2 h
    cases i with
    | zero =>
      have ha : a = u := by simpa [List.get?] using h
      subst ha
      show ((u2 :: as).filter isRunning).length + _ =
        ((a :: as).filter isRunning).length + _
      by_cases h1 : isRunning a = true <;> by_cases h2 : isRunning u2 = true <;>
        simp [List.filter_cons, h1, h2]
    | succ n =>
      have hn : as.get? n = some u := by simpa [List.get?] using h
      have ih2 := ih n u u2 hn
      show ((a :: as.set n u2).filter isRunning).length + _ =
        ((a :: as).filter isRunning).length + _
      by_cases ha : isRunning a = true <;>
        simp [List.filter_cons, ha] <;> omega

theorem runningCount_initial (ps : List String) : runningCount (initialSched ps) = 0 := by
  unfold runningCount initialSched
  induction ps with
  | nil => rfl
  | cons p ps ih => simp [List.filter_cons, isRunning, ih]

theorem schedStep_preserves (N : Nat) {s t : SchedulerState}
    (hstep : SchedStep N s t)
    (hinv : s.held = runningCount s ∧ s.held ≤ N) :
    t.held = runningCount t ∧ t.held ≤ N := by
  cases hstep with
  | start i u hheld hu hp =>
    have hc := count_set s.units i u { u with phase := RefreshPhase.running } hu
    have hru : isRunning u = false := by simp [isRunning, hp]
    have hru2 : isRunning { u with phase := RefreshPhase.running } = true := by
      simp [isRunning]
    rw [hru, hru2] at hc
    simp at hc
    unfold runningCount at hinv ⊢
    dsimp only
    omega
  | finish i u oc hu hp =>
    have hc := count_set s.units i u { u with phase := RefreshPhase.done oc } hu
    have hru : isRunning u = true := by simp [isRunning, hp]
    have hru2 : isRunning { u with phase := RefreshPhase.done oc } = false := by
      simp [isRunning]
    rw [hru, hru2] at hc
    simp at hc
    unfold runningCount at hinv ⊢
    dsimp only
    omega

theorem schedReachable_inv (N : Nat) (providers : List String) (s : SchedulerState)
    (h : SchedReachable N (initialSched providers) s) :
    s.held = runningCount s ∧ s.held ≤ N := by
  induction h with
  | refl =>
    refine ⟨?_, ?_⟩
    · rw [runningCount_initial]
      rfl
    · exact Nat.zero_le N
  | tail hreach hstep ih => exact schedStep_preserves N hstep ih

/-- C6: in the admission-gate model, every state reachable from a tick's
initial state (any number of due units, across any providers) has at most N
units inside Executor.Refresh, and the slots held equal the running units —
so every finished unit (success, error, or cancellation) has given its slot
back and no slot leaks. -/
theorem scheduler_gate_bound (N : Nat) (providers : List String) (s : SchedulerState)
    (h : SchedReachable N (initialSched providers) s) :
    runningCount s ≤ N ∧ s.held = runningCount s := by
  have h2 := schedReachable_inv N providers s h
  exact ⟨by omega, h2.1⟩

theorem scheduler_gate_bound_witness :
    runningCount ⟨[⟨"codex", RefreshPhase.running⟩, ⟨"gemini", RefreshPhase.running⟩,
      ⟨"claude", RefreshPhase.pending⟩], 2⟩ ≤ 2 ∧
    (2 : Nat) = runningCount ⟨[⟨"codex", RefreshPhase.running⟩,
      ⟨"gemini", RefreshPhase.running⟩, ⟨"claude", RefreshPhase.pending⟩], 2⟩ := by
  have h1 : SchedStep 2 (initialSched ["codex", "gemini", "claude"])
      ⟨[⟨"codex", RefreshPhase.running⟩, ⟨"gemini", RefreshPhase.pending⟩,
        ⟨"claude", RefreshPhase.pending⟩], 1⟩ :=
    SchedStep.start 0 ⟨"codex", RefreshPhase.pending⟩ (by decide) rfl rfl
  have h2 : SchedStep 2
      ⟨[⟨"codex", RefreshPhase.running⟩, ⟨"gemini", RefreshPhase.pending⟩,
        ⟨"claude", RefreshPhase.pending⟩], 1⟩
      ⟨[⟨"codex", RefreshPhase.running⟩, ⟨"gemini", RefreshPhase.running⟩,
        ⟨"claude", RefreshPhase.pending⟩], 2⟩ :=
    SchedStep.start 1 ⟨"gemini", RefreshPhase.pending⟩ (by decide) rfl rfl
  have hr : SchedReachable 2 (initialSched ["codex", "gemini", "claude"])
      ⟨[⟨"codex", RefreshPhase.running⟩, ⟨"gemini", RefreshPhase.running⟩,
        ⟨"claude", RefreshPhase.pending⟩], 2⟩ :=
    SchedReachable.tail (SchedReachable.tail SchedReachable.refl h1) h2
  exact scheduler_gate_bound 2 ["codex", "gemini", "claude"] _ hr

end CLIProxy
